import Mathlib

/-!
Shallow embedding of the Smart Quality Cost Monitoring dashboard
(src/app.py) and verification of its specification.

The application keeps a table of quality-cost records (columns
Month, Category, Cost, Description), merges uploads and manual
entries into it with pandas concat + drop_duplicates, aggregates
it with groupby/sum, calls an LLM for insight text, and exports a
PDF report.  Each definition below names the source lines it
embeds.
-/

/-- The 12 month values offered by the entry form (src/app.py line 111). -/
inductive Month where
  | jan | feb | mar | apr | may | jun | jul | aug | sep | oct | nov | dec
deriving DecidableEq

/-- The 4 category values offered by the entry form (src/app.py line 112). -/
inductive Category where
  | prevention | appraisal | internalFailure | externalFailure
deriving DecidableEq

/-- The string stored in the Month column for each month. -/
def monthStr : Month → String
  | .jan => "Jan"
  | .feb => "Feb"
  | .mar => "Mar"
  | .apr => "Apr"
  | .may => "May"
  | .jun => "Jun"
  | .jul => "Jul"
  | .aug => "Aug"
  | .sep => "Sep"
  | .oct => "Oct"
  | .nov => "Nov"
  | .dec => "Dec"

/-- The string stored in the Category column for each category. -/
def categoryStr : Category → String
  | .prevention => "Prevention"
  | .appraisal => "Appraisal"
  | .internalFailure => "Internal Failure"
  | .externalFailure => "External Failure"

/-- One row of the table: Month, Category, Cost, Description
(the four-column schema of src/app.py line 24). -/
structure CostRecord where
  month : Month
  category : Category
  cost : ℤ
  description : String
deriving DecidableEq

/-- `month_order` of src/app.py lines 165 and 245: the fixed Jan..Dec order. -/
def monthOrder : List Month :=
  [.jan, .feb, .mar, .apr, .may, .jun, .jul, .aug, .sep, .oct, .nov, .dec]

/-- The 12 months sorted by their column string ("Apr" < "Aug" < ... < "Sep"):
the key order produced by pandas `groupby("Month")` (sort=True default),
used at src/app.py line 252 where no calendar reindex is applied. -/
def monthAlphaOrder : List Month :=
  [.apr, .aug, .dec, .feb, .jan, .jul, .jun, .mar, .may, .nov, .oct, .sep]

/-- The 4 categories sorted by their column string: the key order produced by
pandas `groupby("Category")` at src/app.py lines 135, 196, 240. -/
def categoryAlphaOrder : List Category :=
  [.appraisal, .externalFailure, .internalFailure, .prevention]

/-- `df["Cost"].sum()` over the whole table: the table's total cost. -/
def totalCost (t : List CostRecord) : ℤ := (t.map (·.cost)).sum

/-- Sum of the Cost column over the rows of a given category
(the group sum computed by `df.groupby("Category")["Cost"].sum()`). -/
def catSum (t : List CostRecord) (c : Category) : ℤ :=
  ((t.filter (fun r => r.category = c)).map (·.cost)).sum

/-- Whether the table has at least one row of category `c`
(whether `c` appears as a groupby key). -/
def catPresent (t : List CostRecord) (c : Category) : Bool :=
  t.any (fun r => r.category = c)

/-- `summary = df.groupby("Category")["Cost"].sum().reset_index()`
(src/app.py lines 135, 196, 240): one (Category, sum) row per category
that is present in the table, rows sorted by category name. -/
def categoryGroups (t : List CostRecord) : List (Category × ℤ) :=
  (categoryAlphaOrder.filter (fun c => catPresent t c)).map (fun c => (c, catSum t c))

/-- `summary.loc[summary["Category"]==c, "Cost"].sum()`
(src/app.py lines 138-141, 198-201, 241-242): sum of the Cost entries of
the summary rows whose Category equals `c`; an empty selection sums to 0. -/
def locCatSum (summary : List (Category × ℤ)) (c : Category) : ℤ :=
  ((summary.filter (fun p => p.1 = c)).map Prod.snd).sum

/-- The effective category summary the program builds and consumes: the
four fixed categories, each paired with its `.loc` sum over the grouped
summary, in the order of src/app.py lines 138-141 (and 198-201). -/
def summarizeByCategory (t : List CostRecord) : List (Category × ℤ) :=
  [(Category.prevention, locCatSum (categoryGroups t) Category.prevention),
   (Category.appraisal, locCatSum (categoryGroups t) Category.appraisal),
   (Category.internalFailure, locCatSum (categoryGroups t) Category.internalFailure),
   (Category.externalFailure, locCatSum (categoryGroups t) Category.externalFailure)]

/-- `COGQ = prevention + appraisal` (src/app.py lines 143 and 241). -/
def COGQ (t : List CostRecord) : ℤ :=
  locCatSum (categoryGroups t) Category.prevention +
    locCatSum (categoryGroups t) Category.appraisal

/-- `COPQ = internal + external` (src/app.py lines 143 and 242). -/
def COPQ (t : List CostRecord) : ℤ :=
  locCatSum (categoryGroups t) Category.internalFailure +
    locCatSum (categoryGroups t) Category.externalFailure

/-- `total = COGQ + COPQ` (src/app.py lines 144 and 243). -/
def total_cost (t : List CostRecord) : ℤ := COGQ t + COPQ t

/-- Whether the table has at least one row of month `m`. -/
def monthPresent (t : List CostRecord) (m : Month) : Bool :=
  t.any (fun r => r.month = m)

/-- Sum of the Cost column over the rows of a given month
(the group sum of `df.groupby("Month")["Cost"].sum()`). -/
def monthSum (t : List CostRecord) (m : Month) : ℤ :=
  ((t.filter (fun r => r.month = m)).map (·.cost)).sum

/-- `monthly` of src/app.py lines 167-173:
`df.groupby("Month")["Cost"].sum().reindex(month_order).reset_index().dropna()`.
Reindexing into the fixed Jan..Dec order and dropping the NaN rows leaves
exactly the present months, in calendar order, with their group sums. -/
def monthlyTrend (t : List CostRecord) : List (Month × ℤ) :=
  (monthOrder.filter (fun m => monthPresent t m)).map (fun m => (m, monthSum t m))

/-- `.tail(n)` of pandas: the last `n` rows. -/
def lastN {α : Type} (n : Nat) (l : List α) : List α := l.drop (l.length - n)

/-- `month_trend = df.groupby("Month")["Cost"].sum().reset_index().tail(3)`
(src/app.py line 252).  The groupby sorts its keys by the month STRING
(alphabetically); no reindex into calendar order is applied here. -/
def month_trend (t : List CostRecord) : List (Month × ℤ) :=
  lastN 3 ((monthAlphaOrder.filter (fun m => monthPresent t m)).map (fun m => (m, monthSum t m)))

/-- Pandas `drop_duplicates()` (default keep="first") over a row list,
threading the set of rows already seen. -/
def dropDupAux {α : Type} [DecidableEq α] : List α → List α → List α
  | _, [] => []
  | seen, x :: xs =>
    if x ∈ seen then dropDupAux seen xs else x :: dropDupAux (x :: seen) xs

/-- `df.drop_duplicates().reset_index(drop=True)`: keep the first occurrence
of each row, in order (src/app.py lines 102 and 120). -/
def dropDuplicates {α : Type} [DecidableEq α] (l : List α) : List α :=
  dropDupAux [] l

/-- Upload merge on conforming rows (src/app.py lines 101-102):
`pd.concat([existing, uploaded], ignore_index=True).drop_duplicates()`. -/
def mergeUpload (t rows : List CostRecord) : List CostRecord :=
  dropDuplicates (t ++ rows)

/-- Manual entry (src/app.py lines 118-120): build the one-row `new_entry`
with the four schema columns, concat, drop duplicates. -/
def addRecord (t : List CostRecord) (m : Month) (c : Category) (q : ℤ)
    (d : String) : List CostRecord :=
  dropDuplicates (t ++ [⟨m, c, q, d⟩])

/-- Modelled from the spec's words (for comparison with the code): the
de-duplicated union that keeps, in insertion order, the first occurrence
of each row. -/
def firstOccurrenceDedup {α : Type} [DecidableEq α] (l : List α) : List α :=
  l.foldl (fun acc x => if x ∈ acc then acc else acc ++ [x]) []

/-! ## Untyped dataframe model (for the upload path, src/app.py lines 97-105)

The upload path reads an arbitrary CSV with `pd.read_csv` and merges it
with `pd.concat` followed by `drop_duplicates`; no column check is made,
so the schema of the uploaded frame must be modelled, not assumed. -/

/-- One cell of a pandas dataframe: a string, a number, or NaN. -/
inductive Cell where
  | str : String → Cell
  | num : ℤ → Cell
  | nan
deriving DecidableEq

/-- A pandas dataframe: named columns, and rows aligned to those columns. -/
structure DataFrame where
  columns : List String
  rows : List (List Cell)
deriving DecidableEq

/-- Column union as computed by `pd.concat` on frames with differing
columns (default sort=False): the first frame's columns, then the second
frame's new columns in order of appearance. -/
def columnUnion (c1 c2 : List String) : List String :=
  c1 ++ c2.filter (fun c => c ∉ c1)

/-- The value a row holds in column `c`, given the row's own columns;
a column the row does not have reads as NaN. -/
def cellAt (cols : List String) (row : List Cell) (c : String) : Cell :=
  match cols.indexOf? c with
  | some i => row.getD i Cell.nan
  | none => Cell.nan

/-- Re-express a row over a new column list, filling missing columns
with NaN (what `pd.concat` does when aligning frames). -/
def alignTo (cols srcCols : List String) (row : List Cell) : List Cell :=
  cols.map (cellAt srcCols row)

/-- `pd.concat([a, b], ignore_index=True)` (src/app.py line 101):
columns are the union, rows of both frames are aligned to it and
stacked, existing rows first. -/
def concatDF (a b : DataFrame) : DataFrame :=
  ⟨columnUnion a.columns b.columns,
   a.rows.map (alignTo (columnUnion a.columns b.columns) a.columns) ++
     b.rows.map (alignTo (columnUnion a.columns b.columns) b.columns)⟩

/-- The whole upload merge, src/app.py lines 101-102:
`pd.concat([existing, uploaded], ignore_index=True).drop_duplicates().reset_index(drop=True)`.
No schema validation occurs anywhere on this path. -/
def mergeUploadDF (existing uploaded : DataFrame) : DataFrame :=
  ⟨(concatDF existing uploaded).columns,
   dropDuplicates (concatDF existing uploaded).rows⟩

/-! ## Process startup and the LLM client (src/app.py line 84) -/

/-- The error message of the external openai-python v1 client constructor
when no api key is available. -/
def apiKeyErrorMsg : String :=
  "The api_key client option must be set either by passing api_key to the client or by setting the OPENAI_API_KEY environment variable"

/-- Models the external openai-python v1 `OpenAI(...)` constructor called
at src/app.py line 84: if the `api_key` argument is None it falls back to
the OPENAI_API_KEY environment variable, and if that is also absent it
raises OpenAIError at construction time. -/
def OpenAIInit (apiKey : Option String) (env : String → Option String) :
    Except String Unit :=
  match apiKey with
  | some _ => .ok ()
  | none =>
    match env "OPENAI_API_KEY" with
    | some _ => .ok ()
    | none => .error apiKeyErrorMsg

/-- The module-level statement
`client = OpenAI(api_key=os.getenv("OPENAI_API_KEY"))` (src/app.py line 84),
executed at every script start before any page logic runs. -/
def startupScript (env : String → Option String) : Except String Unit :=
  OpenAIInit (env "OPENAI_API_KEY") env

/-! ## Session state and the LLM / export handlers -/

/-- The session and filesystem state the claims are about: the record
table (`st.session_state["data"]`), the persisted CSV, the cached report
text (`st.session_state["report"]`), whether the KPI figure is cached
(`st.session_state["fig_kpi"]`), and whether the chart / PDF files have
been written. -/
structure AppState where
  data : List CostRecord
  file : List CostRecord
  report : Option String
  figKpi : Bool
  chartFileWritten : Bool
  pdfFileWritten : Bool
deriving DecidableEq

/-- The AI-suggestions button handler, src/app.py lines 218-229: the
try/except around `client.chat.completions.create`.  The LLM outcome is
passed in: on success the text is only displayed (nothing stored), on any
exception `st.error(f"Error: {e}")` shows the reason inline.  The second
component is the displayed error message, if any. -/
def generateSuggestions (s : AppState) (llm : Except String String) :
    AppState × Option String :=
  match llm with
  | .ok _ => (s, none)
  | .error e => (s, some ("Error: " ++ e))

/-- The monthly-report button handler, src/app.py lines 273-283: on
success the completion is stored in `st.session_state["report"]`; on any
exception `st.error(f"Error generating report: {e}")` shows the reason
and nothing is stored. -/
def generateReport (s : AppState) (llm : Except String String) :
    AppState × Option String :=
  match llm with
  | .ok text => ({ s with report := some text }, none)
  | .error e => (s, some ("Error generating report: " ++ e))

/-- Python `text.replace("₹", "Rs.")` on the character list. -/
def replaceRupeeChars : List Char → List Char
  | [] => []
  | c :: cs =>
    if c = '₹' then 'R' :: 's' :: '.' :: replaceRupeeChars cs
    else c :: replaceRupeeChars cs

/-- Python `text.replace("₹", "Rs.")` (src/app.py lines 289 and 324). -/
def replaceRupee (s : String) : String := ⟨replaceRupeeChars s.data⟩

/-- Outcome of the PDF-export handler: success, or an inline warning. -/
inductive ExportOutcome where
  | success
  | warn : String → ExportOutcome
deriving DecidableEq

/-- Warning shown when no report text exists (src/app.py line 292). -/
def reportFirstMsg : String := "Generate the report first."

/-- Warning shown when no KPI figure is cached (src/app.py line 300). -/
def dashboardFirstMsg : String :=
  "⚠️ Please visit the Dashboard page first to generate KPI chart."

/-- The Download-PDF button handler, src/app.py lines 287-331.
First (line 289) the cached report text, when present, is rewritten in
place with the currency substitution; then the prerequisite checks run:
missing report text warns and stops (lines 291-292), missing KPI figure
warns and calls `st.stop()` before any file is written (lines 296-301);
otherwise the chart image and the PDF file are written (lines 298, 331). -/
def exportPDF (s : AppState) : AppState × ExportOutcome :=
  let s1 :=
    match s.report with
    | some r => { s with report := some (replaceRupee r) }
    | none => s
  match s1.report with
  | none => (s1, .warn reportFirstMsg)
  | some _ =>
    if s1.figKpi then
      ({ s1 with chartFileWritten := true, pdfFileWritten := true },
       .success)
    else
      (s1, .warn dashboardFirstMsg)

/-! ## Shared lemmas about drop_duplicates -/

theorem mem_dropDupAux {α : Type} [DecidableEq α] (a : α) (l : List α) :
    ∀ seen, a ∈ dropDupAux seen l ↔ a ∈ l ∧ a ∉ seen := by
  induction l with
  | nil => intro seen; simp [dropDupAux]
  | cons x xs ih =>
    intro seen
    by_cases hx : x ∈ seen
    · rw [dropDupAux, if_pos hx, ih]
      constructor
      · rintro ⟨h1, h2⟩; exact ⟨List.mem_cons_of_mem _ h1, h2⟩
      · rintro ⟨h1, h2⟩
        rcases List.mem_cons.mp h1 with rfl | h1
        · exact absurd hx h2
        · exact ⟨h1, h2⟩
    · rw [dropDupAux, if_neg hx]
      constructor
      · intro hmem
        rcases List.mem_cons.mp hmem with rfl | hmem
        · exact ⟨List.mem_cons_self _ _, hx⟩
        · rcases (ih (x :: seen)).mp hmem with ⟨h1, h2⟩
          exact ⟨List.mem_cons_of_mem _ h1,
            fun hc => h2 (List.mem_cons_of_mem _ hc)⟩
      · rintro ⟨h1, h2⟩
        rcases List.mem_cons.mp h1 with rfl | h1
        · exact List.mem_cons_self _ _
        · by_cases hax : a = x
          · subst hax; exact List.mem_cons_self _ _
          · exact List.mem_cons_of_mem _ ((ih (x :: seen)).mpr
              ⟨h1, fun hc => by
                rcases List.mem_cons.mp hc with h | h
                · exact hax h
                · exact h2 h⟩)

theorem nodup_dropDupAux {α : Type} [DecidableEq α] (l : List α) :
    ∀ seen, (dropDupAux seen l).Nodup := by
  induction l with
  | nil => intro seen; simp [dropDupAux]
  | cons x xs ih =>
    intro seen
    by_cases hx : x ∈ seen
    · rw [dropDupAux, if_pos hx]; exact ih seen
    · rw [dropDupAux, if_neg hx]
      refine List.nodup_cons.mpr ⟨?_, ih (x :: seen)⟩
      intro hc
      exact ((mem_dropDupAux x xs (x :: seen)).mp hc).2 (List.mem_cons_self _ _)

theorem sublist_dropDupAux {α : Type} [DecidableEq α] (l : List α) :
    ∀ seen, (dropDupAux seen l).Sublist l := by
  induction l with
  | nil => intro seen; simp [dropDupAux]
  | cons x xs ih =>
    intro seen
    by_cases hx : x ∈ seen
    · rw [dropDupAux, if_pos hx]; exact (ih seen).cons x
    · rw [dropDupAux, if_neg hx]; exact (ih (x :: seen)).cons₂ x

theorem dropDupAux_congr {α : Type} [DecidableEq α] (l : List α) :
    ∀ s1 s2, (∀ a, a ∈ s1 ↔ a ∈ s2) → dropDupAux s1 l = dropDupAux s2 l := by
  induction l with
  | nil => intro s1 s2 _; rfl
  | cons x xs ih =>
    intro s1 s2 h
    by_cases hx : x ∈ s1
    · rw [dropDupAux, dropDupAux, if_pos hx, if_pos ((h x).mp hx), ih s1 s2 h]
    · have hx2 : x ∉ s2 := fun hc => hx ((h x).mpr hc)
      rw [dropDupAux, dropDupAux, if_neg hx, if_neg hx2,
        ih (x :: s1) (x :: s2) (fun a => by
          simp only [List.mem_cons]
          exact or_congr Iff.rfl (h a))]

theorem foldl_dedup_eq {α : Type} [DecidableEq α] (l : List α) :
    ∀ seen,
      l.foldl (fun acc x => if x ∈ acc then acc else acc ++ [x]) seen =
        seen ++ dropDupAux seen l := by
  induction l with
  | nil => intro seen; simp [dropDupAux]
  | cons x xs ih =>
    intro seen
    by_cases hx : x ∈ seen
    · rw [List.foldl_cons, if_pos hx, dropDupAux, if_pos hx, ih seen]
    · rw [List.foldl_cons, if_neg hx, dropDupAux, if_neg hx,
        ih (seen ++ [x]),
        dropDupAux_congr xs (seen ++ [x]) (x :: seen) (fun a => by
          simp [List.mem_append, List.mem_cons, or_comm]),
        List.append_assoc]
      rfl

theorem firstOccurrenceDedup_eq_dropDuplicates {α : Type} [DecidableEq α]
    (l : List α) : firstOccurrenceDedup l = dropDuplicates l := by
  rw [firstOccurrenceDedup, dropDuplicates, foldl_dedup_eq, List.nil_append]

theorem mem_dropDuplicates {α : Type} [DecidableEq α] (a : α) (l : List α) :
    a ∈ dropDuplicates l ↔ a ∈ l := by
  rw [dropDuplicates, mem_dropDupAux]
  simp

/-! ## Shared lemmas about the groupby sums -/

theorem catSum_cons (r : CostRecord) (t : List CostRecord) (c : Category) :
    catSum (r :: t) c = (if r.category = c then r.cost else 0) + catSum t c := by
  by_cases h : r.category = c <;> simp [catSum, List.filter_cons, h]

theorem totalCost_cons (r : CostRecord) (t : List CostRecord) :
    totalCost (r :: t) = r.cost + totalCost t := by
  simp [totalCost]

theorem catSum_partition (t : List CostRecord) :
    catSum t .prevention + catSum t .appraisal + catSum t .internalFailure +
      catSum t .externalFailure = totalCost t := by
  induction t with
  | nil => simp [catSum, totalCost]
  | cons r t ih =>
    rw [totalCost_cons, catSum_cons, catSum_cons, catSum_cons, catSum_cons, ← ih]
    cases r.category <;> simp <;> ring

theorem catSum_nonneg (t : List CostRecord) (c : Category)
    (h : ∀ r ∈ t, 0 ≤ r.cost) : 0 ≤ catSum t c := by
  apply List.sum_nonneg
  intro x hx
  rw [List.mem_map] at hx
  obtain ⟨r, hr, rfl⟩ := hx
  exact h r (List.mem_of_mem_filter hr)

theorem catSum_eq_zero_of_absent (t : List CostRecord) (c : Category)
    (h : catPresent t c = false) : catSum t c = 0 := by
  have hnil : t.filter (fun r => r.category = c) = [] := by
    rw [List.filter_eq_nil_iff]
    intro r hr hc
    have := (List.any_eq_false.mp h) r hr
    exact this hc
  simp [catSum, hnil]

theorem locCatSum_mapped (cs : List Category) (g : Category → ℤ) (c : Category)
    (h : cs.Nodup) :
    locCatSum (cs.map (fun x => (x, g x))) c = if c ∈ cs then g c else 0 := by
  induction cs with
  | nil => simp [locCatSum]
  | cons x xs ih =>
    rw [List.nodup_cons] at h
    by_cases hxc : x = c
    · subst hxc
      have hnx : x ∉ xs := h.1
      rw [List.map_cons]
      have : locCatSum ((x, g x) :: xs.map (fun y => (y, g y))) x =
          g x + locCatSum (xs.map (fun y => (y, g y))) x := by
        simp [locCatSum, List.filter_cons]
      rw [this, ih h.2, if_neg hnx, if_pos (List.mem_cons_self _ _)]
      ring
    · rw [List.map_cons]
      have : locCatSum ((x, g x) :: xs.map (fun y => (y, g y))) c =
          locCatSum (xs.map (fun y => (y, g y))) c := by
        simp [locCatSum, List.filter_cons, hxc]
      rw [this, ih h.2]
      have : (c ∈ x :: xs) ↔ (c ∈ xs) := by
        simp [List.mem_cons]
        intro hcx
        exact absurd hcx.symm hxc
      simp [this]

theorem mem_categoryAlphaOrder (c : Category) : c ∈ categoryAlphaOrder := by
  cases c <;> simp [categoryAlphaOrder]

theorem nodup_categoryAlphaOrder : categoryAlphaOrder.Nodup := by
  decide

theorem locCatSum_groups (t : List CostRecord) (c : Category) :
    locCatSum (categoryGroups t) c = catSum t c := by
  rw [categoryGroups,
    locCatSum_mapped _ _ _ (nodup_categoryAlphaOrder.filter _)]
  by_cases hp : catPresent t c = true
  · rw [if_pos (List.mem_filter.mpr ⟨mem_categoryAlphaOrder c, hp⟩)]
  · rw [if_neg (fun hc => hp (List.mem_filter.mp hc).2),
      catSum_eq_zero_of_absent t c (Bool.eq_false_iff.mpr hp)]

/-- The spec's scenario table:
[(Jan, Prevention, 100, "x"), (Jan, Appraisal, 50, "y"), (Feb, Internal Failure, 30, "z")]. -/
def sampleTable : List CostRecord :=
  [⟨.jan, .prevention, 100, "x"⟩, ⟨.jan, .appraisal, 50, "y"⟩,
   ⟨.feb, .internalFailure, 30, "z"⟩]

/-- C1: for every valid RecordTable (all costs non-negative; categories are
the 4 fixed ones by construction), the category summary the program builds
has exactly the 4 fixed category keys in order — a category with no rows
still appears, with a zero sum — every summed cost is non-negative, and
the four sums add up to the table's total cost. -/
theorem C1_summarize_four_keys_nonneg_total (t : List CostRecord)
    (h : ∀ r ∈ t, 0 ≤ r.cost) :
    (summarizeByCategory t).map Prod.fst =
        [Category.prevention, Category.appraisal, Category.internalFailure,
         Category.externalFailure]
    ∧ (∀ p ∈ summarizeByCategory t, 0 ≤ p.2)
    ∧ ((summarizeByCategory t).map Prod.snd).sum = totalCost t := by
  refine ⟨rfl, ?_, ?_⟩
  · intro p hp
    simp only [summarizeByCategory, List.mem_cons, List.not_mem_nil, or_false] at hp
    rcases hp with rfl | rfl | rfl | rfl <;>
      · rw [locCatSum_groups]
        exact catSum_nonneg t _ h
  · simp only [summarizeByCategory, List.map_cons, List.map_nil, List.sum_cons,
      List.sum_nil, locCatSum_groups, add_zero]
    rw [← catSum_partition t]
    ring

theorem C1_witness :
    (∀ r ∈ sampleTable, 0 ≤ r.cost)
    ∧ ((summarizeByCategory sampleTable).map Prod.fst =
          [Category.prevention, Category.appraisal, Category.internalFailure,
           Category.externalFailure]
        ∧ (∀ p ∈ summarizeByCategory sampleTable, 0 ≤ p.2)
        ∧ ((summarizeByCategory sampleTable).map Prod.snd).sum =
            totalCost sampleTable) :=
  ⟨by decide, C1_summarize_four_keys_nonneg_total sampleTable (by decide)⟩

/-- C7: the KPI snapshot computed by the program satisfies
COGQ = Prevention sum + Appraisal sum, COPQ = Internal Failure sum +
External Failure sum, and COGQ + COPQ = total, for every input table. -/
theorem C7_kpi_identities (t : List CostRecord) :
    COGQ t = catSum t .prevention + catSum t .appraisal
    ∧ COPQ t = catSum t .internalFailure + catSum t .externalFailure
    ∧ COGQ t + COPQ t = total_cost t := by
  refine ⟨?_, ?_, rfl⟩ <;> simp [COGQ, COPQ, locCatSum_groups]

/-- C5: both ingestion entry points return the de-duplicated union of the
existing table and the new rows, keeping the first occurrence of each row
in insertion order (`firstOccurrenceDedup` renders the spec's words); the
result has no duplicate rows; and merging a table with itself yields a
table equal, as a set of rows, to the original. -/
theorem C5_ingestion_dedup_union (t rows : List CostRecord) (m : Month)
    (c : Category) (q : ℤ) (d : String) :
    mergeUpload t rows = firstOccurrenceDedup (t ++ rows)
    ∧ (mergeUpload t rows).Nodup
    ∧ addRecord t m c q d = firstOccurrenceDedup (t ++ [⟨m, c, q, d⟩])
    ∧ (∀ r, r ∈ mergeUpload t t ↔ r ∈ t) := by
  refine ⟨(firstOccurrenceDedup_eq_dropDuplicates _).symm,
    nodup_dropDupAux _ _,
    (firstOccurrenceDedup_eq_dropDuplicates _).symm, ?_⟩
  intro r
  rw [mergeUpload, mem_dropDuplicates]
  simp [List.mem_append]

theorem mem_monthOrder (m : Month) : m ∈ monthOrder := by
  cases m <;> simp [monthOrder]

/-- C6: every entry of the monthly trend is a (month, group sum) pair for a
month that has matching rows in the table (absent months are omitted), the
months appear as a subsequence of the fixed Jan..Dec order, and every
present month does appear with its sum. -/
theorem C6_monthlyTrend_months (t : List CostRecord) :
    (∀ p ∈ monthlyTrend t, (∃ r ∈ t, r.month = p.1) ∧ p.2 = monthSum t p.1)
    ∧ ((monthlyTrend t).map Prod.fst).Sublist monthOrder
    ∧ (∀ m : Month, (∃ r ∈ t, r.month = m) →
        (m, monthSum t m) ∈ monthlyTrend t) := by
  refine ⟨?_, ?_, ?_⟩
  · intro p hp
    rw [monthlyTrend, List.mem_map] at hp
    obtain ⟨m, hm, rfl⟩ := hp
    have hpres : monthPresent t m = true := (List.mem_filter.mp hm).2
    rw [monthPresent, List.any_eq_true] at hpres
    obtain ⟨r, hr, hrm⟩ := hpres
    exact ⟨⟨r, hr, by simpa using hrm⟩, rfl⟩
  · have : (monthlyTrend t).map Prod.fst =
        monthOrder.filter (fun m => monthPresent t m) := by
      rw [monthlyTrend, List.map_map]
      have hcomp : (Prod.fst ∘ fun m => (m, monthSum t m)) = id := by
        funext m
        rfl
      rw [hcomp, List.map_id]
    rw [this]
    exact List.filter_sublist _
  · intro m hm
    rw [monthlyTrend, List.mem_map]
    refine ⟨m, List.mem_filter.mpr ⟨mem_monthOrder m, ?_⟩, rfl⟩
    rw [monthPresent, List.any_eq_true]
    obtain ⟨r, hr, hrm⟩ := hm
    exact ⟨r, hr, by simpa using hrm⟩

theorem C6_witness :
    (∃ r ∈ sampleTable, r.month = Month.feb)
    ∧ (Month.feb, monthSum sampleTable Month.feb) ∈ monthlyTrend sampleTable :=
  ⟨by decide, (C6_monthlyTrend_months sampleTable).2.2 Month.feb (by decide)⟩

/-- A table with months Jan..Apr, one row of cost 1 each. -/
def tblJanToApr : List CostRecord :=
  [⟨.jan, .prevention, 1, ""⟩, ⟨.feb, .prevention, 1, ""⟩,
   ⟨.mar, .prevention, 1, ""⟩, ⟨.apr, .prevention, 1, ""⟩]

/-- C3: `month_trend` (the code's recentTrend, src/app.py line 252) is NOT
the last 3 entries of the calendar-ordered monthly trend: on a table with
months Jan..Apr the groupby sorts the month strings alphabetically
(Apr, Feb, Jan, Mar), so `.tail(3)` yields (Feb, Jan, Mar) while the tail
of the calendar-ordered trend is (Feb, Mar, Apr). -/
theorem C3_month_trend_not_calendar_tail :
    month_trend tblJanToApr =
        [(Month.feb, 1), (Month.jan, 1), (Month.mar, 1)]
    ∧ lastN 3 (monthlyTrend tblJanToApr) =
        [(Month.feb, 1), (Month.mar, 1), (Month.apr, 1)]
    ∧ month_trend tblJanToApr ≠ lastN 3 (monthlyTrend tblJanToApr) := by
  refine ⟨by decide, by decide, by decide⟩

/-- C2 counterexample: with the LLM API key environment variable absent,
the module-level client construction errors instead of succeeding — the
script crashes at startup, contradicting the claim that the process
starts successfully. -/
theorem C2_counterexample :
    startupScript (fun _ => none) = Except.error apiKeyErrorMsg
    ∧ startupScript (fun _ => none) ≠ Except.ok () := by
  refine ⟨rfl, ?_⟩
  intro h
  simp [startupScript, OpenAIInit] at h

/-- C2 (amended): whenever the LLM API key environment variable is absent,
the startup statement at src/app.py line 84 fails with the client
constructor's missing-key error, so the script crashes at startup and no
page logic (Insight Generator or otherwise) is reachable. -/
theorem C2_startup_crash (env : String → Option String)
    (h : env "OPENAI_API_KEY" = none) :
    startupScript env = Except.error apiKeyErrorMsg := by
  rw [startupScript, h, OpenAIInit, h]

theorem C2_witness :
    (fun _ : String => (none : Option String)) "OPENAI_API_KEY" = none
    ∧ startupScript (fun _ => none) = Except.error apiKeyErrorMsg :=
  ⟨rfl, C2_startup_crash (fun _ => none) rfl⟩

/-- The existing four-column table of the C4 scenario. -/
def existingDF : DataFrame :=
  ⟨["Month", "Category", "Cost", "Description"],
   [[.str "Jan", .str "Prevention", .num 100, .str "x"]]⟩

/-- The C4 scenario upload: columns Month, Category, Amount
(missing Cost, extra Amount). -/
def uploadDF : DataFrame :=
  ⟨["Month", "Category", "Amount"], [[.str "Feb", .str "Appraisal", .num 50]]⟩

/-- C4 counterexample: uploading a frame with columns Month, Category,
Amount is NOT rejected — the merge completes, the stored table gains an
Amount column and the uploaded row, so the existing table does not remain
unchanged and no error is raised. -/
theorem C4_counterexample :
    mergeUploadDF existingDF uploadDF ≠ existingDF
    ∧ (mergeUploadDF existingDF uploadDF).columns =
        ["Month", "Category", "Cost", "Description", "Amount"]
    ∧ (mergeUploadDF existingDF uploadDF).rows.length = 2 := by
  refine ⟨by decide, by decide, by decide⟩

/-- C4 (amended): the upload path performs no schema validation at all:
for ANY uploaded frame, the merge completes with the column union of the
two frames (missing fields becoming NaN) and every uploaded row is
ingested — there is no SchemaError and no abort. -/
theorem C4_no_schema_validation (e u : DataFrame) :
    (mergeUploadDF e u).columns = columnUnion e.columns u.columns
    ∧ (∀ r ∈ u.rows,
        alignTo (columnUnion e.columns u.columns) u.columns r ∈
          (mergeUploadDF e u).rows) := by
  refine ⟨rfl, ?_⟩
  intro r hr
  show _ ∈ dropDuplicates (concatDF e u).rows
  rw [mem_dropDuplicates, concatDF]
  simp only [List.mem_append, List.mem_map]
  exact Or.inr ⟨r, hr, rfl⟩

theorem C4_witness :
    [Cell.str "Feb", Cell.str "Appraisal", Cell.num 50] ∈ uploadDF.rows
    ∧ alignTo (columnUnion existingDF.columns uploadDF.columns)
          uploadDF.columns [Cell.str "Feb", Cell.str "Appraisal", Cell.num 50] ∈
        (mergeUploadDF existingDF uploadDF).rows :=
  ⟨by decide,
   (C4_no_schema_validation existingDF uploadDF).2 _ (by decide)⟩

/-- C8: when the LLM call raises (any exception), both handlers catch it
and return normally (no crash), display an inline error message that is
the fixed prefix followed by the failure reason, and leave the whole
session state — record table, persisted file, cached report — unchanged. -/
theorem C8_llm_error_inline_state_unchanged (s : AppState) (e : String) :
    generateSuggestions s (Except.error e) = (s, some ("Error: " ++ e))
    ∧ (generateSuggestions s (Except.error e)).1.data = s.data
    ∧ (generateSuggestions s (Except.error e)).1.file = s.file
    ∧ generateReport s (Except.error e) =
        (s, some ("Error generating report: " ++ e))
    ∧ (generateReport s (Except.error e)).1.data = s.data
    ∧ (generateReport s (Except.error e)).1.file = s.file :=
  ⟨rfl, rfl, rfl, rfl, rfl, rfl⟩

/-- C9: if the cached report text or the cached KPI figure is absent, the
PDF export does not succeed: neither the chart image nor the PDF file is
written, and the handler surfaces the directive naming the missing prior
step — "Generate the report first." when the insight text is absent, the
visit-the-Dashboard warning when the chart is absent. -/
theorem C9_export_prerequisites (s : AppState)
    (h : s.report = none ∨ s.figKpi = false) :
    (exportPDF s).2 ≠ ExportOutcome.success
    ∧ (exportPDF s).1.pdfFileWritten = s.pdfFileWritten
    ∧ (exportPDF s).1.chartFileWritten = s.chartFileWritten
    ∧ (s.report = none → (exportPDF s).2 = ExportOutcome.warn reportFirstMsg)
    ∧ (s.report ≠ none →
        (exportPDF s).2 = ExportOutcome.warn dashboardFirstMsg) := by
  cases hr : s.report with
  | none =>
    refine ⟨?_, ?_, ?_, ?_, ?_⟩ <;> simp [exportPDF, hr]
  | some r =>
    have hf : s.figKpi = false := by
      rcases h with h | h
      · rw [hr] at h; exact absurd h (by simp)
      · exact h
    refine ⟨?_, ?_, ?_, ?_, ?_⟩ <;> simp [exportPDF, hr, hf]

/-- An empty session state: no data, no report, no cached figure. -/
def emptyState : AppState := ⟨[], [], none, false, false, false⟩

theorem C9_witness :
    (emptyState.report = none ∨ emptyState.figKpi = false)
    ∧ ((exportPDF emptyState).2 ≠ ExportOutcome.success
        ∧ (exportPDF emptyState).1.pdfFileWritten = emptyState.pdfFileWritten
        ∧ (exportPDF emptyState).1.chartFileWritten =
            emptyState.chartFileWritten
        ∧ (emptyState.report = none →
            (exportPDF emptyState).2 = ExportOutcome.warn reportFirstMsg)
        ∧ (emptyState.report ≠ none →
            (exportPDF emptyState).2 = ExportOutcome.warn dashboardFirstMsg)) :=
  ⟨Or.inl rfl, C9_export_prerequisites emptyState (Or.inl rfl)⟩

theorem rupee_not_mem_replaceRupeeChars (l : List Char) :
    ∀ c ∈ replaceRupeeChars l, c ≠ '₹' := by
  induction l with
  | nil => simp [replaceRupeeChars]
  | cons x xs ih =>
    by_cases hx : x = '₹'
    · rw [replaceRupeeChars, if_pos hx]
      intro c hc
      rcases List.mem_cons.mp hc with rfl | hc
      · decide
      rcases List.mem_cons.mp hc with rfl | hc
      · decide
      rcases List.mem_cons.mp hc with rfl | hc
      · decide
      · exact ih c hc
    · rw [replaceRupeeChars, if_neg hx]
      intro c hc
      rcases List.mem_cons.mp hc with rfl | hc
      · exact hx
      · exact ih c hc

/-- C10: whenever a report text is cached, pressing Download PDF Report
overwrites the cached text with its currency-substituted version before
any prerequisite check runs — in every outcome branch (missing chart
included) the stored report is the substituted text, which contains no
rupee sign, so every later display or export sees the substituted text. -/
theorem C10_export_mutates_cached_report (s : AppState) (r : String)
    (h : s.report = some r) :
    (exportPDF s).1.report = some (replaceRupee r)
    ∧ (∀ c ∈ (replaceRupee r).data, c ≠ '₹') := by
  refine ⟨?_, ?_⟩
  · cases hf : s.figKpi <;> simp [exportPDF, h, hf]
  · intro c hc
    exact rupee_not_mem_replaceRupeeChars r.data c (by simpa [replaceRupee] using hc)

/-- A session state whose cached report text contains rupee signs and
whose KPI figure is NOT cached (so the export stops at the chart check). -/
def stateWithReport : AppState :=
  ⟨[], [], some "Total = ₹180", false, false, false⟩

theorem C10_witness :
    stateWithReport.report = some "Total = ₹180"
    ∧ ((exportPDF stateWithReport).1.report =
          some (replaceRupee "Total = ₹180")
        ∧ (∀ c ∈ (replaceRupee "Total = ₹180").data, c ≠ '₹')) :=
  ⟨rfl, C10_export_mutates_cached_report stateWithReport "Total = ₹180" rfl⟩
